import Mathlib

/-!
Verification of the marketplace API client of `vscode-marketplace-downloader`.

The development shallowly embeds `src/utils/marketplaceApi.ts` (operations) and
`src/utils/types.ts` (data model).  Conventions of the embedding:

* JavaScript values that may be `undefined`/`null` are `Option`s.
* JavaScript truthiness on `string | undefined | null` (`if (!publisher)`,
  `if (itemName)`, `version ? _ : _`) is `jsTruthyStr`: an absent value and the
  empty string are falsy, every other string is truthy.
* `extensionId.split('.')` (single-character separator, no limit) is
  `jsSplitChar '.'`, defined by structural recursion over the character list.
* The platform URL parser (`new URL`) is external to the repository; the URL
  operations take its outcome as input: `none` when the constructor threw
  (caught by the source's `try`/`catch`), otherwise the parts the source reads
  (`hostname`, `pathname`, decoded query parameters in order, with
  `searchParams.get` returning the first value).
* Network effects are explicit: `fetchExtensionInfo` takes the transport
  outcome of its single `fetch` as a `FetchOutcome` argument and returns a
  `FetchTrace` recording both the request body it POSTed (`none` when the
  precondition check failed before any network call was reached) and the
  result; `downloadExtensionFile` likewise takes a `DownloadOutcome`.
* JSON numeric literals in the request body are `Nat`; statistic values are
  JSON numbers that no specified operation inspects, kept as `Int`.
* Every operation wraps its body in `try`/`catch` returning `null`; the
  embedding is total, and each modelled failure branch returns `none`.
-/

namespace Marketplace

/-- JS truthiness of a `string | undefined | null` value: `undefined`, `null`
and `""` are falsy; any non-empty string is truthy. -/
def jsTruthyStr : Option String → Bool
  | none => false
  | some s => !s.isEmpty

/-- `String.prototype.split` with a one-character separator, on character
lists: `split('.')` never yields an empty list (splitting `""` yields `[""]`),
and adjacent separators yield empty components. -/
def jsSplitCharAux (sep : Char) : List Char → List (List Char)
  | [] => [[]]
  | c :: rest =>
    let r := jsSplitCharAux sep rest
    if c = sep then [] :: r
    else
      match r with
      | [] => [[c]]
      | h :: t => (c :: h) :: t

/-- `s.split(sep)` for a one-character separator `sep`. -/
def jsSplitChar (sep : Char) (s : String) : List String :=
  (jsSplitCharAux sep s.toList).map (fun l => ⟨l⟩)

/-- `publisher` field of a `VSCodeExtension` (from `src/utils/types.ts`). -/
structure Publisher where
  publisherId : String
  publisherName : String
  displayName : String
deriving DecidableEq

/-- `ExtensionFile` from `src/utils/types.ts`: an asset-type tag and a source
URL. -/
structure ExtensionFile where
  assetType : String
  source : String
deriving DecidableEq

/-- `ExtensionProperty` from `src/utils/types.ts`. -/
structure ExtensionProperty where
  key : String
  value : String
deriving DecidableEq

/-- `ExtensionStatistic` from `src/utils/types.ts`; the numeric value is not
inspected by any modelled operation. -/
structure ExtensionStatistic where
  statisticName : String
  value : Int
deriving DecidableEq

/-- `ExtensionVersion` from `src/utils/types.ts`. -/
structure ExtensionVersion where
  version : String
  lastUpdated : String
  files : List ExtensionFile
  properties : Option (List ExtensionProperty)
deriving DecidableEq

/-- `VSCodeExtension` from `src/utils/types.ts`. -/
structure VSCodeExtension where
  extensionId : String
  extensionName : String
  displayName : String
  publisher : Publisher
  versions : List ExtensionVersion
  shortDescription : String
  description : String
  categories : List String
  tags : List String
  statistics : List ExtensionStatistic
  flags : Int
  lastUpdated : String
  publishedDate : String
  releaseDate : String
deriving DecidableEq

/-- `DownloadUrlInfo` from `src/utils/types.ts`. -/
structure DownloadUrlInfo where
  downloadUrl : String
  version : String
  fileName : String
deriving DecidableEq

namespace EXTENSION_ASSET_TYPES

/-- `EXTENSION_ASSET_TYPES.VSIX` from `src/utils/types.ts`: the asset-type tag
of the installable package. -/
def VSIX : String := "Microsoft.VisualStudio.Services.VSIXPackage"

/-- `EXTENSION_ASSET_TYPES.MANIFEST` from `src/utils/types.ts`. -/
def MANIFEST : String := "Microsoft.VisualStudio.Code.Manifest"

/-- `EXTENSION_ASSET_TYPES.DETAILS` from `src/utils/types.ts`. -/
def DETAILS : String := "Microsoft.VisualStudio.Services.Content.Details"

/-- `EXTENSION_ASSET_TYPES.LICENSE` from `src/utils/types.ts`. -/
def LICENSE : String := "Microsoft.VisualStudio.Services.Content.License"

/-- `EXTENSION_ASSET_TYPES.ICON` from `src/utils/types.ts`. -/
def ICON : String := "Microsoft.VisualStudio.Services.Icons.Default"

end EXTENSION_ASSET_TYPES

/-- The parts of a successfully parsed URL that the source reads: `hostname`,
`pathname`, and the decoded query parameters in order. -/
structure URLParts where
  hostname : String
  pathname : String
  searchParams : List (String × String)
deriving DecidableEq

/-- `urlObj.searchParams.get(key)`: the first value bound to `key`, or `null`
when the parameter is absent. -/
def URLParts.getParam (u : URLParts) (key : String) : Option String :=
  (u.searchParams.find? (fun p => p.1 == key)).map (fun p => p.2)

/-- `extractExtensionIdFromUrl` from `src/utils/marketplaceApi.ts`.  The
argument is the outcome of `new URL(url)` (`none`: the constructor threw and
the `catch` returns `null`).  On the canonical host it reads the `itemName`
query parameter and returns it when truthy (`if (itemName)`), else `null`. -/
def extractExtensionIdFromUrl (url : Option URLParts) : Option String :=
  match url with
  | none => none
  | some urlObj =>
    if urlObj.hostname == "marketplace.visualstudio.com" then
      let itemName := urlObj.getParam "itemName"
      if jsTruthyStr itemName then itemName else none
    else
      none

/-- `isMarketplaceExtensionPage` from `src/utils/marketplaceApi.ts`: hostname
must equal the canonical host and the pathname must be exactly `/items`; a
parse failure is caught and yields `false`. -/
def isMarketplaceExtensionPage (url : Option URLParts) : Bool :=
  match url with
  | none => false
  | some urlObj =>
    urlObj.hostname == "marketplace.visualstudio.com" && urlObj.pathname == "/items"

/-- One entry of the `results` array of the query response; the `extensions`
field may be absent (`data.results?.[0]?.extensions`). -/
structure QueryResultEntry where
  extensions : Option (List VSCodeExtension)
deriving DecidableEq

/-- Parsed JSON body of the query response; the `results` field may be
absent. -/
structure QueryResponseData where
  results : Option (List QueryResultEntry)
deriving DecidableEq

/-- `data.results?.[0]?.extensions`: optional chaining through the `results`
array, its first element, and that element's `extensions` field. -/
def parsedExtensions (data : QueryResponseData) : Option (List VSCodeExtension) :=
  (data.results.bind List.head?).bind QueryResultEntry.extensions

/-- Transport outcome of the single `fetch` POST in `fetchExtensionInfo`:
the call (or `response.json()`) threw, or the response had a non-success
status (`!response.ok`), or it succeeded with a parsed JSON body. -/
inductive FetchOutcome where
  | thrown
  | httpError
  | success (data : QueryResponseData)
deriving DecidableEq

/-- One `criteria` entry of the query request body. -/
structure QueryCriterion where
  filterType : Nat
  value : String
deriving DecidableEq

/-- One filter group of the query request body. -/
structure QueryFilter where
  criteria : List QueryCriterion
  pageNumber : Nat
  pageSize : Nat
  sortBy : Nat
  sortOrder : Nat
deriving DecidableEq

/-- JSON request body POSTed to the gallery query endpoint. -/
structure QueryRequestBody where
  filters : List QueryFilter
  assetTypes : List String
  flags : Nat
deriving DecidableEq

/-- The request body literal of `fetchExtensionInfo`
(`src/utils/marketplaceApi.ts`, lines 30-43): one filter group with a single
criteria entry (`filterType: 7`, `value: extensionId`), page 1 of size 1,
`sortBy`/`sortOrder` 0, empty `assetTypes`, `flags: 914`. -/
def marketplaceQueryBody (extensionId : String) : QueryRequestBody :=
  { filters := [{ criteria := [{ filterType := 7, value := extensionId }],
                  pageNumber := 1, pageSize := 1, sortBy := 0, sortOrder := 0 }],
    assetTypes := [],
    flags := 914 }

/-- Observable behaviour of one `fetchExtensionInfo` call: the body of the
single POST it issued (`none`: the precondition check failed and no network
request was made) and the returned value. -/
structure FetchTrace where
  request : Option QueryRequestBody
  result : Option VSCodeExtension
deriving DecidableEq

/-- `fetchExtensionInfo` from `src/utils/marketplaceApi.ts`.
`const [publisher, name] = extensionId.split('.')` binds the first two
components of the split; `if (!publisher || !name)` returns `null` before the
`fetch` is reached.  Otherwise the POST is issued with `marketplaceQueryBody`;
a thrown error or `!response.ok` yields `null`; on success
`data.results?.[0]?.extensions` must be a non-empty array, whose first element
is returned. -/
def fetchExtensionInfo (extensionId : String) (net : FetchOutcome) : FetchTrace :=
  let parts := jsSplitChar '.' extensionId
  let publisher := parts[0]?
  let name := parts[1]?
  if !jsTruthyStr publisher || !jsTruthyStr name then
    { request := none, result := none }
  else
    { request := some (marketplaceQueryBody extensionId),
      result :=
        match net with
        | .thrown => none
        | .httpError => none
        | .success data =>
          match parsedExtensions data with
          | none => none
          | some exts => if exts.isEmpty then none else exts.head? }

/-- The version-selection expression of `getExtensionDownloadUrl`
(`version ? extension.versions.find(v => v.version === version)
: extension.versions[0]`); the conditional's test is JS truthiness, so an
absent and an empty `version` both select index 0. -/
def selectTargetVersion (versions : List ExtensionVersion) (version : Option String) :
    Option ExtensionVersion :=
  match version with
  | some v => if v.isEmpty then versions.head? else versions.find? (fun ver => ver.version == v)
  | none => versions.head?

/-- The pure tail of `getExtensionDownloadUrl` after its `fetchExtensionInfo`
call: guard on a present record with a non-empty `versions`, select the target
version, find the VSIX asset in its file list, and build the
`DownloadUrlInfo` (the file name is the template literal
`${extension.publisher.publisherName}.${extension.extensionName}-${targetVersion.version}.vsix`). -/
def resolveDownloadInfo (extension? : Option VSCodeExtension) (version : Option String) :
    Option DownloadUrlInfo :=
  match extension? with
  | none => none
  | some extension =>
    if extension.versions.isEmpty then none
    else
      match selectTargetVersion extension.versions version with
      | none => none
      | some targetVersion =>
        match targetVersion.files.find? (fun file => file.assetType == EXTENSION_ASSET_TYPES.VSIX) with
        | none => none
        | some vsixFile =>
          some { downloadUrl := vsixFile.source,
                 version := targetVersion.version,
                 fileName := extension.publisher.publisherName ++ "." ++ extension.extensionName
                   ++ "-" ++ targetVersion.version ++ ".vsix" }

/-- `getExtensionDownloadUrl` from `src/utils/marketplaceApi.ts`: fetch the
record, then resolve the download descriptor from it. -/
def getExtensionDownloadUrl (extensionId : String) (net : FetchOutcome)
    (version : Option String) : Option DownloadUrlInfo :=
  resolveDownloadInfo (fetchExtensionInfo extensionId net).result version

/-- Transport outcome of the single `fetch` GET in `downloadExtensionFile`. -/
inductive DownloadOutcome where
  | thrown
  | httpError
  | success (blob : List Nat)
deriving DecidableEq

/-- `downloadExtensionFile` from `src/utils/marketplaceApi.ts`: GET the URL;
a thrown error or `!response.ok` yields `null`, success yields the body blob.
The `filename` parameter is accepted and unused, as in the source. -/
def downloadExtensionFile (downloadUrl : String) (filename : String)
    (net : DownloadOutcome) : Option (List Nat) :=
  match net with
  | .thrown => none
  | .httpError => none
  | .success blob => some blob

/-- Modelled from the spec: a transport/data outcome of the query that §7
classifies as a failure — a thrown network error, a non-success HTTP status,
a response missing the `results`/`extensions` nesting, or an empty
`extensions` array. -/
def adverseFetch : FetchOutcome → Bool
  | .thrown => true
  | .httpError => true
  | .success data =>
    match parsedExtensions data with
    | none => true
    | some exts => exts.isEmpty

/-- Modelled from the spec: a failing transport outcome of the raw-bytes GET —
a thrown network error or a non-success HTTP status. -/
def adverseDownload : DownloadOutcome → Bool
  | .thrown => true
  | .httpError => true
  | .success _ => false

/-- The claim's reading of splitting an identifier on the FIRST `.`: the text
before the first `.` paired with everything after it, or `none` when the
string has no `.` at all.  (This follows the claim's words; the source instead
splits on every `.`.) -/
def firstDotSplitAux : List Char → Option (List Char × List Char)
  | [] => none
  | c :: rest =>
    if c = '.' then some ([], rest)
    else (firstDotSplitAux rest).map (fun p => (c :: p.1, p.2))

/-- `firstDotSplitAux` on strings. -/
def firstDotSplit (s : String) : Option (String × String) :=
  (firstDotSplitAux s.toList).map (fun p => (⟨p.1⟩, ⟨p.2⟩))

/-! Concrete fixtures used by witnesses and counterexamples. -/

/-- VSIX asset of the sample record's version `2.0.0`. -/
def sampleVsix2 : ExtensionFile :=
  { assetType := EXTENSION_ASSET_TYPES.VSIX, source := "https://example.com/v2.vsix" }

/-- VSIX asset of the sample record's version `1.0.0`. -/
def sampleVsix1 : ExtensionFile :=
  { assetType := EXTENSION_ASSET_TYPES.VSIX, source := "https://example.com/v1.vsix" }

/-- Sample version `2.0.0` (index 0, most recent). -/
def sampleVersion2 : ExtensionVersion :=
  { version := "2.0.0", lastUpdated := "2024-02-01", files := [sampleVsix2], properties := none }

/-- Sample version `1.0.0`. -/
def sampleVersion1 : ExtensionVersion :=
  { version := "1.0.0", lastUpdated := "2024-01-01", files := [sampleVsix1], properties := none }

/-- Sample publisher `acme`. -/
def samplePublisher : Publisher :=
  { publisherId := "pid-1", publisherName := "acme", displayName := "Acme Inc" }

/-- Sample record with versions `["2.0.0", "1.0.0"]`, each carrying a package
asset. -/
def sampleExtension : VSCodeExtension :=
  { extensionId := "eid-1", extensionName := "tool", displayName := "Tool",
    publisher := samplePublisher,
    versions := [sampleVersion2, sampleVersion1],
    shortDescription := "s", description := "d", categories := [], tags := [],
    statistics := [], flags := 0, lastUpdated := "2024-02-01",
    publishedDate := "2024-01-01", releaseDate := "2024-01-01" }

/-- Record whose single version `1.2.3` carries a package asset; publisher
internal name `acme`, extension internal name `tool`. -/
def acmeExtension : VSCodeExtension :=
  { extensionId := "eid-2", extensionName := "tool", displayName := "Tool",
    publisher := samplePublisher,
    versions := [{ version := "1.2.3", lastUpdated := "2024-03-01",
                   files := [{ assetType := EXTENSION_ASSET_TYPES.VSIX,
                               source := "https://example.com/acme.vsix" }],
                   properties := none }],
    shortDescription := "s", description := "d", categories := [], tags := [],
    statistics := [], flags := 0, lastUpdated := "2024-03-01",
    publishedDate := "2024-01-01", releaseDate := "2024-01-01" }

/-- Version `3.0.0` whose file list has no package asset (only a manifest). -/
def noAssetVersion : ExtensionVersion :=
  { version := "3.0.0", lastUpdated := "2024-04-01",
    files := [{ assetType := EXTENSION_ASSET_TYPES.MANIFEST,
                source := "https://example.com/manifest.json" }],
    properties := none }

/-- Record whose only version has no package asset. -/
def noAssetExtension : VSCodeExtension :=
  { extensionId := "eid-3", extensionName := "tool", displayName := "Tool",
    publisher := samplePublisher,
    versions := [noAssetVersion],
    shortDescription := "s", description := "d", categories := [], tags := [],
    statistics := [], flags := 0, lastUpdated := "2024-04-01",
    publishedDate := "2024-01-01", releaseDate := "2024-01-01" }

/-- First (lowest-index) package asset of the multi-asset fixture. -/
def firstVsixAsset : ExtensionFile :=
  { assetType := EXTENSION_ASSET_TYPES.VSIX, source := "https://example.com/first.vsix" }

/-- Second package asset of the multi-asset fixture. -/
def secondVsixAsset : ExtensionFile :=
  { assetType := EXTENSION_ASSET_TYPES.VSIX, source := "https://example.com/second.vsix" }

/-- Non-package asset placed before both package assets. -/
def detailsAsset : ExtensionFile :=
  { assetType := EXTENSION_ASSET_TYPES.DETAILS, source := "https://example.com/details.md" }

/-- Version `4.0.0` with two package assets in its file list. -/
def multiAssetVersion : ExtensionVersion :=
  { version := "4.0.0", lastUpdated := "2024-05-01",
    files := [detailsAsset, firstVsixAsset, secondVsixAsset], properties := none }

/-- Record whose only version carries two package assets. -/
def multiAssetExtension : VSCodeExtension :=
  { extensionId := "eid-4", extensionName := "tool", displayName := "Tool",
    publisher := samplePublisher,
    versions := [multiAssetVersion],
    shortDescription := "s", description := "d", categories := [], tags := [],
    statistics := [], flags := 0, lastUpdated := "2024-05-01",
    publishedDate := "2024-01-01", releaseDate := "2024-01-01" }

/-- Canonical-host URL carrying `itemName` with an empty value. -/
def emptyItemNameUrl : URLParts :=
  { hostname := "marketplace.visualstudio.com", pathname := "/items",
    searchParams := [("itemName", "")] }

/-- Canonical-host URL carrying `itemName=publisher.name`. -/
def itemNameUrl : URLParts :=
  { hostname := "marketplace.visualstudio.com", pathname := "/items",
    searchParams := [("itemName", "publisher.name")] }

/-- Canonical-host URL at the marketplace root path. -/
def rootUrl : URLParts :=
  { hostname := "marketplace.visualstudio.com", pathname := "/", searchParams := [] }

/-- Foreign-host URL with the detail path. -/
def otherHostUrl : URLParts :=
  { hostname := "other.example", pathname := "/items", searchParams := [] }

/-- The descriptor resolved for `acmeExtension`. -/
def acmeDescriptor : DownloadUrlInfo :=
  { downloadUrl := "https://example.com/acme.vsix", version := "1.2.3",
    fileName := "acme.tool-1.2.3.vsix" }

/-! Helper lemmas about `selectTargetVersion` and `resolveDownloadInfo`. -/

/-- Selecting from an empty versions sequence yields nothing. -/
theorem selectTargetVersion_nil (version : Option String) :
    selectTargetVersion [] version = none := by
  cases version with
  | none => rfl
  | some v =>
    by_cases h : v.isEmpty <;> simp [selectTargetVersion, h]

/-- A selected version forces the versions sequence to be non-empty. -/
theorem versions_ne_nil_of_select (versions : List ExtensionVersion)
    (version : Option String) (tv : ExtensionVersion)
    (h : selectTargetVersion versions version = some tv) : versions ≠ [] := by
  intro hnil
  subst hnil
  rw [selectTargetVersion_nil] at h
  exact Option.noConfusion h

/-- An absent record resolves to nothing. -/
theorem resolveDownloadInfo_none (version : Option String) :
    resolveDownloadInfo none version = none := rfl

/-- A record with no versions resolves to nothing. -/
theorem resolveDownloadInfo_nil (ext : VSCodeExtension) (version : Option String)
    (h : ext.versions = []) : resolveDownloadInfo (some ext) version = none := by
  simp [resolveDownloadInfo, h]

/-- If no version is selected, resolution yields nothing. -/
theorem resolveDownloadInfo_select_none (ext : VSCodeExtension) (version : Option String)
    (h : selectTargetVersion ext.versions version = none) :
    resolveDownloadInfo (some ext) version = none := by
  by_cases hnil : ext.versions = []
  · exact resolveDownloadInfo_nil ext version hnil
  · have hempty : ext.versions.isEmpty = false := by
      simpa [List.isEmpty_iff] using hnil
    simp [resolveDownloadInfo, hempty, h]

/-- If the selected version's file list has no package asset, resolution
yields nothing. -/
theorem resolveDownloadInfo_find_none (ext : VSCodeExtension) (version : Option String)
    (tv : ExtensionVersion)
    (hsel : selectTargetVersion ext.versions version = some tv)
    (hfind : tv.files.find? (fun file => file.assetType == EXTENSION_ASSET_TYPES.VSIX) = none) :
    resolveDownloadInfo (some ext) version = none := by
  have hempty : ext.versions.isEmpty = false := by
    simpa [List.isEmpty_iff] using versions_ne_nil_of_select _ _ _ hsel
  simp [resolveDownloadInfo, hempty, hsel, hfind]

/-- If a package asset is found in the selected version's file list,
resolution yields the descriptor built from it. -/
theorem resolveDownloadInfo_find_some (ext : VSCodeExtension) (version : Option String)
    (tv : ExtensionVersion) (f : ExtensionFile)
    (hsel : selectTargetVersion ext.versions version = some tv)
    (hfind : tv.files.find? (fun file => file.assetType == EXTENSION_ASSET_TYPES.VSIX) = some f) :
    resolveDownloadInfo (some ext) version =
      some { downloadUrl := f.source, version := tv.version,
             fileName := ext.publisher.publisherName ++ "." ++ ext.extensionName
               ++ "-" ++ tv.version ++ ".vsix" } := by
  have hempty : ext.versions.isEmpty = false := by
    simpa [List.isEmpty_iff] using versions_ne_nil_of_select _ _ _ hsel
  simp [resolveDownloadInfo, hempty, hsel, hfind]

/-- Inversion: a successful resolution comes from a selected version and a
found package asset, and the descriptor's fields are determined by them. -/
theorem resolveDownloadInfo_eq_some (ext : VSCodeExtension) (version : Option String)
    (d : DownloadUrlInfo) (h : resolveDownloadInfo (some ext) version = some d) :
    ∃ tv f, selectTargetVersion ext.versions version = some tv ∧
      tv.files.find? (fun file => file.assetType == EXTENSION_ASSET_TYPES.VSIX) = some f ∧
      d.downloadUrl = f.source ∧ d.version = tv.version ∧
      d.fileName = ext.publisher.publisherName ++ "." ++ ext.extensionName
        ++ "-" ++ tv.version ++ ".vsix" := by
  simp only [resolveDownloadInfo] at h
  split at h
  · exact absurd h (by simp)
  · split at h
    · exact absurd h (by simp)
    · rename_i tv hsel
      split at h
      · exact absurd h (by simp)
      · rename_i f hfind
        injection h with h
        subst h
        exact ⟨tv, f, hsel, hfind, rfl, rfl, rfl⟩

/-! Claim C1: version selection in resolve-download-descriptor. -/

/-- C1 as stated fails on an explicit empty version string: no version record
of the sample record has the version string `""`, so the claim demands an
absent result, but the code's `version ? find(...) : versions[0]` treats the
empty string as falsy and resolves the first entry `2.0.0`. -/
theorem resolve_explicit_empty_version_counterexample :
    (∀ v ∈ sampleExtension.versions, v.version ≠ "") ∧
    resolveDownloadInfo (some sampleExtension) (some "") =
      some { downloadUrl := "https://example.com/v2.vsix", version := "2.0.0",
             fileName := "acme.tool-2.0.0.vsix" } := by
  constructor
  · decide
  · decide

/-- C1 (amended): for every extension record and optional explicit version
string, resolution selects the version as follows — an absent record or an
empty versions sequence yields an absent result; with no explicit version the
descriptor's version is that of the first entry (index 0); with a NON-EMPTY
explicit version the descriptor's version is that of the first matching
version record, and when no record matches the result is absent; an explicit
EMPTY version string is treated exactly as if no version had been requested. -/
theorem resolve_version_selection (ext : VSCodeExtension) (version : Option String) :
    resolveDownloadInfo none version = none ∧
    (ext.versions = [] → resolveDownloadInfo (some ext) version = none) ∧
    (∀ d, resolveDownloadInfo (some ext) none = some d →
      ∃ v0, ext.versions.head? = some v0 ∧ d.version = v0.version) ∧
    (∀ v d, v ≠ "" → resolveDownloadInfo (some ext) (some v) = some d → d.version = v) ∧
    (∀ v, v ≠ "" → (∀ ver ∈ ext.versions, ver.version ≠ v) →
      resolveDownloadInfo (some ext) (some v) = none) ∧
    resolveDownloadInfo (some ext) (some "") = resolveDownloadInfo (some ext) none := by
  refine ⟨rfl, fun h => resolveDownloadInfo_nil ext version h, ?_, ?_, ?_, ?_⟩
  · intro d hd
    obtain ⟨tv, f, hsel, -, -, hver, -⟩ := resolveDownloadInfo_eq_some ext none d hd
    simp only [selectTargetVersion] at hsel
    exact ⟨tv, hsel, hver⟩
  · intro v d hv hd
    obtain ⟨tv, f, hsel, -, -, hver, -⟩ := resolveDownloadInfo_eq_some ext (some v) d hd
    have hemp : v.isEmpty = false := by
      rw [Bool.eq_false_iff]
      intro hb
      exact hv ((String.isEmpty_iff v).mp hb)
    simp only [selectTargetVersion, hemp, Bool.false_eq_true, if_false] at hsel
    have hbeq := List.find?_some hsel
    have : tv.version = v := by simpa using hbeq
    rw [hver, this]
  · intro v hv hnomatch
    have hemp : v.isEmpty = false := by
      rw [Bool.eq_false_iff]
      intro hb
      exact hv ((String.isEmpty_iff v).mp hb)
    have hfind : ext.versions.find? (fun ver => ver.version == v) = none := by
      rw [List.find?_eq_none]
      intro x hx
      simpa using hnomatch x hx
    refine resolveDownloadInfo_select_none ext (some v) ?_
    simp [selectTargetVersion, hemp, hfind]
  · have h0 : ("" : String).isEmpty = true := by decide
    have hsel : selectTargetVersion ext.versions (some "") =
        selectTargetVersion ext.versions none := by
      simp [selectTargetVersion, h0]
    simp only [resolveDownloadInfo, hsel]

/-- C1 witness: the sample record (versions `["2.0.0", "1.0.0"]`) with the
explicit version `"9.9.9"` resolves to nothing. -/
theorem resolve_version_selection_witness :
    resolveDownloadInfo (some sampleExtension) (some "9.9.9") = none :=
  (resolve_version_selection sampleExtension none).2.2.2.2.1 "9.9.9"
    (by decide) (by decide)

/-! Helper lemmas about `fetchExtensionInfo`. -/

/-- Truthiness of an optional string means: present and non-empty. -/
theorem jsTruthyStr_eq_true_iff (o : Option String) :
    jsTruthyStr o = true ↔ ∃ s, o = some s ∧ s ≠ "" := by
  cases o with
  | none => simp [jsTruthyStr]
  | some s =>
    simp only [jsTruthyStr, Bool.not_eq_true', Option.some.injEq]
    constructor
    · intro h
      refine ⟨s, rfl, ?_⟩
      intro hs
      rw [← String.isEmpty_iff] at hs
      rw [hs] at h
      exact Bool.noConfusion h
    · rintro ⟨t, rfl, ht⟩
      rw [Bool.eq_false_iff]
      intro hb
      exact ht ((String.isEmpty_iff s).mp hb)

/-- The request component of a fetch trace, as an explicit conditional on the
precondition check. -/
theorem fetchExtensionInfo_request_eq (extensionId : String) (net : FetchOutcome) :
    (fetchExtensionInfo extensionId net).request =
      if !jsTruthyStr (jsSplitChar '.' extensionId)[0]?
          || !jsTruthyStr (jsSplitChar '.' extensionId)[1]? then none
      else some (marketplaceQueryBody extensionId) := by
  simp only [fetchExtensionInfo]
  split <;> rfl

/-- A fetch that issued no request returned no record. -/
theorem fetchExtensionInfo_result_none_of_request_none (extensionId : String)
    (net : FetchOutcome) (h : (fetchExtensionInfo extensionId net).request = none) :
    (fetchExtensionInfo extensionId net).result = none := by
  simp only [fetchExtensionInfo] at h ⊢
  split at h
  · rename_i hc
    rw [if_pos hc]
  · exact absurd h (by simp)

/-! Claim C2: the precondition check of fetch-record. -/

/-- C2 as stated fails on `"a..b"`: splitting on the FIRST `.` yields the two
non-empty halves `"a"` and `".b"`, so the claim demands that the query be
issued, but the code destructures the first two components of the full split
`["a", "", "b"]`, finds the empty second component falsy, and returns absent
without reaching the network call — even under a successful transport outcome
carrying a real record. -/
theorem fetch_precheck_counterexample :
    firstDotSplit "a..b" = some ("a", ".b") ∧
    ("a" : String) ≠ "" ∧ (".b" : String) ≠ "" ∧
    (fetchExtensionInfo "a..b" (FetchOutcome.success
      { results := some [{ extensions := some [sampleExtension] }] })).request = none ∧
    (fetchExtensionInfo "a..b" (FetchOutcome.success
      { results := some [{ extensions := some [sampleExtension] }] })).result = none := by
  refine ⟨by decide, by decide, by decide, by decide, by decide⟩

/-- C2 (amended): fetch-record issues its network query exactly when the full
split of the identifier on `.` has a present, non-empty first component and a
present, non-empty second component; otherwise it fails fast — no request and
an absent result.  (Splitting on every `.` is stricter than the claim's
first-`.` split: an identifier with an empty segment between its first two
dots also fails fast.)  `"invalid-id"`, `".name"` and `"publisher."` all
return absent with no network call. -/
theorem fetch_precheck (extensionId : String) (net : FetchOutcome) :
    ((fetchExtensionInfo extensionId net).request ≠ none ↔
      (∃ p, (jsSplitChar '.' extensionId)[0]? = some p ∧ p ≠ "") ∧
      (∃ n, (jsSplitChar '.' extensionId)[1]? = some n ∧ n ≠ "")) ∧
    ((fetchExtensionInfo extensionId net).request = none →
      (fetchExtensionInfo extensionId net).result = none) ∧
    (fetchExtensionInfo "invalid-id" net).request = none ∧
    (fetchExtensionInfo "invalid-id" net).result = none ∧
    (fetchExtensionInfo ".name" net).request = none ∧
    (fetchExtensionInfo ".name" net).result = none ∧
    (fetchExtensionInfo "publisher." net).request = none ∧
    (fetchExtensionInfo "publisher." net).result = none := by
  refine ⟨?_, fetchExtensionInfo_result_none_of_request_none extensionId net,
    ?_, ?_, ?_, ?_, ?_, ?_⟩
  · rw [fetchExtensionInfo_request_eq,
      ← jsTruthyStr_eq_true_iff (jsSplitChar '.' extensionId)[0]?,
      ← jsTruthyStr_eq_true_iff (jsSplitChar '.' extensionId)[1]?]
    cases h0 : jsTruthyStr (jsSplitChar '.' extensionId)[0]? <;>
      cases h1 : jsTruthyStr (jsSplitChar '.' extensionId)[1]? <;>
        simp [h0, h1]
  all_goals
    first
      | exact (fetchExtensionInfo_request_eq _ net).trans (by decide)
      | exact fetchExtensionInfo_result_none_of_request_none _ net
          ((fetchExtensionInfo_request_eq _ net).trans (by decide))

/-- C2 witness: `"invalid-id"` issues no request, while the well-formed
identifier `"publisher.name"` does. -/
theorem fetch_precheck_witness :
    (fetchExtensionInfo "invalid-id" FetchOutcome.httpError).request = none ∧
    (fetchExtensionInfo "publisher.name" FetchOutcome.httpError).request ≠ none := by
  refine ⟨(fetch_precheck "invalid-id" FetchOutcome.httpError).2.2.1, ?_⟩
  exact (fetch_precheck "publisher.name" FetchOutcome.httpError).1.mpr
    ⟨⟨"publisher", by decide, by decide⟩, ⟨"name", by decide, by decide⟩⟩

/-! Claim C3: the package asset within the selected version. -/

/-- C3: if the selected version's file list has no asset tagged with the
installable-package constant `Microsoft.VisualStudio.Services.VSIXPackage`,
resolution is absent even though the version was found; if one is found, the
descriptor's `downloadUrl` is that asset's `source` verbatim. -/
theorem resolve_vsix_asset (ext : VSCodeExtension) (version : Option String)
    (tv : ExtensionVersion)
    (hsel : selectTargetVersion ext.versions version = some tv) :
    ((∀ f ∈ tv.files, f.assetType ≠ EXTENSION_ASSET_TYPES.VSIX) →
      resolveDownloadInfo (some ext) version = none) ∧
    (∀ f, tv.files.find? (fun file => file.assetType == EXTENSION_ASSET_TYPES.VSIX) = some f →
      ∃ d, resolveDownloadInfo (some ext) version = some d ∧ d.downloadUrl = f.source) := by
  constructor
  · intro hno
    refine resolveDownloadInfo_find_none ext version tv hsel ?_
    rw [List.find?_eq_none]
    intro x hx
    simpa using hno x hx
  · intro f hf
    exact ⟨_, resolveDownloadInfo_find_some ext version tv f hsel hf, rfl⟩

/-- C3 witness: the record whose only version carries just a manifest asset
resolves to nothing. -/
theorem resolve_vsix_asset_witness :
    resolveDownloadInfo (some noAssetExtension) none = none :=
  (resolve_vsix_asset noAssetExtension none noAssetVersion (by decide)).1 (by decide)

/-! Claim C4: identifier extraction from a URL. -/

/-- C4 as stated fails when `itemName` is present with an empty value: the
parameter exists with raw value `""`, so the claim's "otherwise" branch
demands that `""` be returned, but `if (itemName)` treats the empty string as
falsy and the code returns absent. -/
theorem extract_id_counterexample :
    emptyItemNameUrl.hostname = "marketplace.visualstudio.com" ∧
    emptyItemNameUrl.getParam "itemName" = some "" ∧
    extractExtensionIdFromUrl (some emptyItemNameUrl) = none ∧
    extractExtensionIdFromUrl (some emptyItemNameUrl) ≠ some "" := by
  refine ⟨rfl, by decide, by decide, by decide⟩

/-- C4 (amended): extraction is absent when the URL did not parse, or the
host is not the canonical marketplace host, or the `itemName` parameter is
absent OR present with an empty value; otherwise (canonical host, parameter
present with a non-empty value) it returns exactly the raw parameter value.
The embedded operation is total, so malformed input never raises. -/
theorem extract_id_spec (u : URLParts) :
    extractExtensionIdFromUrl none = none ∧
    (u.hostname ≠ "marketplace.visualstudio.com" →
      extractExtensionIdFromUrl (some u) = none) ∧
    (u.getParam "itemName" = none → extractExtensionIdFromUrl (some u) = none) ∧
    (u.getParam "itemName" = some "" → extractExtensionIdFromUrl (some u) = none) ∧
    (∀ v, u.hostname = "marketplace.visualstudio.com" →
      u.getParam "itemName" = some v → v ≠ "" →
      extractExtensionIdFromUrl (some u) = some v) := by
  have h0 : ("" : String).isEmpty = true := by decide
  refine ⟨rfl, ?_, ?_, ?_, ?_⟩
  · intro h
    simp [extractExtensionIdFromUrl, h]
  · intro h
    simp [extractExtensionIdFromUrl, h, jsTruthyStr]
  · intro h
    simp [extractExtensionIdFromUrl, h, jsTruthyStr, h0]
  · intro v hh hp hv
    have hemp : v.isEmpty = false := by
      rw [Bool.eq_false_iff]
      intro hb
      exact hv ((String.isEmpty_iff v).mp hb)
    simp [extractExtensionIdFromUrl, hh, hp, jsTruthyStr, hemp]

/-- C4 witness: a canonical-host URL with `itemName=publisher.name` extracts
exactly `publisher.name`. -/
theorem extract_id_spec_witness :
    extractExtensionIdFromUrl (some itemNameUrl) = some "publisher.name" :=
  (extract_id_spec itemNameUrl).2.2.2.2 "publisher.name" rfl (by decide) (by decide)

/-! Claim C5: the detail-page classifier. -/

/-- C5: the classifier is true exactly when the URL parsed, its host is the
canonical marketplace host, and its path is exactly `/items`; the canonical
host's root path, a foreign host's `/items`, and a parse failure are all
false. -/
theorem is_detail_page_spec (url : Option URLParts) :
    (isMarketplaceExtensionPage url = true ↔
      ∃ u, url = some u ∧ u.hostname = "marketplace.visualstudio.com" ∧
        u.pathname = "/items") ∧
    isMarketplaceExtensionPage (some itemNameUrl) = true ∧
    isMarketplaceExtensionPage (some rootUrl) = false ∧
    isMarketplaceExtensionPage (some otherHostUrl) = false ∧
    isMarketplaceExtensionPage none = false := by
  refine ⟨?_, by decide, by decide, by decide, rfl⟩
  cases url with
  | none => simp [isMarketplaceExtensionPage]
  | some u => simp [isMarketplaceExtensionPage]

/-- C5 witness: the classifier applied to the canonical detail-page URL. -/
theorem is_detail_page_spec_witness :
    isMarketplaceExtensionPage (some itemNameUrl) = true :=
  (is_detail_page_spec (some itemNameUrl)).1.mpr ⟨itemNameUrl, rfl, rfl, rfl⟩

/-! Claim C6: the synthesized file name. -/

/-- C6: every successful resolution's file name is
`{publisherName}.{extensionName}-{version}.vsix`, and for publisher internal
name `acme`, extension internal name `tool` and version `1.2.3` it is exactly
`acme.tool-1.2.3.vsix`. -/
theorem resolve_file_name (ext : VSCodeExtension) (version : Option String) :
    (∀ d, resolveDownloadInfo (some ext) version = some d →
      d.fileName = ext.publisher.publisherName ++ "." ++ ext.extensionName
        ++ "-" ++ d.version ++ ".vsix") ∧
    resolveDownloadInfo (some acmeExtension) none = some acmeDescriptor := by
  constructor
  · intro d hd
    obtain ⟨tv, f, -, -, -, hver, hname⟩ := resolveDownloadInfo_eq_some ext version d hd
    rw [hname, hver]
  · decide

/-- C6 witness: the concrete `acme`/`tool`/`1.2.3` descriptor's file name
matches the synthesis template. -/
theorem resolve_file_name_witness :
    acmeDescriptor.fileName =
      acmeExtension.publisher.publisherName ++ "." ++ acmeExtension.extensionName
        ++ "-" ++ acmeDescriptor.version ++ ".vsix" :=
  (resolve_file_name acmeExtension none).1 acmeDescriptor (by decide)

/-! Claim C7: failures are converted to absent results. -/

/-- C7: under every failing transport/data outcome — a thrown network error, a
non-success HTTP status, a response missing the `results`/`extensions`
nesting, or an empty `extensions` array — fetch-record and
resolve-download-descriptor return an absent result, and the raw-bytes GET
returns an absent result under its failing outcomes; each embedded operation
is a total function, so no fault escapes an operation's boundary. -/
theorem operations_fail_closed (extensionId url filename : String)
    (version : Option String) (fnet : FetchOutcome) (dnet : DownloadOutcome)
    (hf : adverseFetch fnet = true) (hd : adverseDownload dnet = true) :
    (fetchExtensionInfo extensionId fnet).result = none ∧
    getExtensionDownloadUrl extensionId fnet version = none ∧
    downloadExtensionFile url filename dnet = none := by
  have hres : (fetchExtensionInfo extensionId fnet).result = none := by
    cases fnet with
    | thrown =>
      simp only [fetchExtensionInfo]
      split <;> rfl
    | httpError =>
      simp only [fetchExtensionInfo]
      split <;> rfl
    | success data =>
      simp only [fetchExtensionInfo]
      split
      · rfl
      · simp only [adverseFetch] at hf
        cases hp : parsedExtensions data with
        | none => simp [hp]
        | some exts =>
          rw [hp] at hf
          simp at hf
          simp [hp, hf]
  refine ⟨hres, ?_, ?_⟩
  · simp only [getExtensionDownloadUrl, hres]
    rfl
  · cases dnet with
    | thrown => rfl
    | httpError => rfl
    | success blob => exact absurd hd (by simp [adverseDownload])

/-- C7 witness: a thrown query and a non-success download status both yield
absent results for all three operations. -/
theorem operations_fail_closed_witness :
    (fetchExtensionInfo "publisher.name" FetchOutcome.thrown).result = none ∧
    getExtensionDownloadUrl "publisher.name" FetchOutcome.thrown none = none ∧
    downloadExtensionFile "https://example.com/x.vsix" "x.vsix"
      DownloadOutcome.httpError = none :=
  operations_fail_closed "publisher.name" "https://example.com/x.vsix" "x.vsix"
    none FetchOutcome.thrown DownloadOutcome.httpError (by decide) (by decide)

/-! Claim C8: the query request body. -/

/-- C8: for every identifier passing the precondition check, the single POST's
body has exactly one filter group, whose single criteria entry carries the
identifier string verbatim, with pageNumber 1, pageSize 1, sortBy 0,
sortOrder 0, an empty requested-asset-types array, and flags 914. -/
theorem fetch_request_body (extensionId : String) (net : FetchOutcome)
    (hp : ∃ p, (jsSplitChar '.' extensionId)[0]? = some p ∧ p ≠ "")
    (hn : ∃ n, (jsSplitChar '.' extensionId)[1]? = some n ∧ n ≠ "") :
    ∃ body, (fetchExtensionInfo extensionId net).request = some body ∧
      body.filters = [{ criteria := [{ filterType := 7, value := extensionId }],
                        pageNumber := 1, pageSize := 1, sortBy := 0, sortOrder := 0 }] ∧
      body.assetTypes = [] ∧
      body.flags = 914 := by
  have h0 : jsTruthyStr (jsSplitChar '.' extensionId)[0]? = true :=
    (jsTruthyStr_eq_true_iff _).mpr hp
  have h1 : jsTruthyStr (jsSplitChar '.' extensionId)[1]? = true :=
    (jsTruthyStr_eq_true_iff _).mpr hn
  refine ⟨marketplaceQueryBody extensionId, ?_, rfl, rfl, rfl⟩
  rw [fetchExtensionInfo_request_eq, h0, h1]
  rfl

/-- C8 witness: the body POSTed for `publisher.name`. -/
theorem fetch_request_body_witness :
    ∃ body, (fetchExtensionInfo "publisher.name" FetchOutcome.httpError).request = some body ∧
      body.filters = [{ criteria := [{ filterType := 7, value := "publisher.name" }],
                        pageNumber := 1, pageSize := 1, sortBy := 0, sortOrder := 0 }] ∧
      body.assetTypes = [] ∧
      body.flags = 914 :=
  fetch_request_body "publisher.name" FetchOutcome.httpError
    ⟨"publisher", by decide, by decide⟩ ⟨"name", by decide, by decide⟩

/-! Claim C9: a present-but-empty `itemName` value. -/

/-- C9: a URL whose `itemName` parameter is present with an empty value
extracts nothing — exactly the outcome for a missing parameter — because
`if (itemName)` treats the empty string as falsy; a present-but-empty value is
never returned as an identifier. -/
theorem extract_id_empty_param (u : URLParts) (h : u.getParam "itemName" = some "") :
    extractExtensionIdFromUrl (some u) = none := by
  have h0 : ("" : String).isEmpty = true := by decide
  simp [extractExtensionIdFromUrl, h, jsTruthyStr, h0]

/-- C9 witness: the concrete canonical-host URL carrying `itemName=` (empty
value) extracts nothing. -/
theorem extract_id_empty_param_witness :
    extractExtensionIdFromUrl (some emptyItemNameUrl) = none :=
  extract_id_empty_param emptyItemNameUrl (by decide)

/-! Claim C10: the lowest-index package asset wins. -/

/-- C10: when the selected version's file list is any `pre ++ f :: post` with
no package asset in `pre` and `f` tagged as the package, the descriptor is
fully determined by `f` — its `downloadUrl` is `f`'s source — for every tail
`post`, so entries after the first match never affect the result. -/
theorem resolve_first_vsix_asset (ext : VSCodeExtension) (version : Option String)
    (tv : ExtensionVersion) (pre post : List ExtensionFile) (f : ExtensionFile)
    (hsel : selectTargetVersion ext.versions version = some tv)
    (hfiles : tv.files = pre ++ f :: post)
    (hpre : ∀ g ∈ pre, g.assetType ≠ EXTENSION_ASSET_TYPES.VSIX)
    (hf : f.assetType = EXTENSION_ASSET_TYPES.VSIX) :
    resolveDownloadInfo (some ext) version =
      some { downloadUrl := f.source, version := tv.version,
             fileName := ext.publisher.publisherName ++ "." ++ ext.extensionName
               ++ "-" ++ tv.version ++ ".vsix" } := by
  have hfind : tv.files.find? (fun file => file.assetType == EXTENSION_ASSET_TYPES.VSIX)
      = some f := by
    rw [hfiles, List.find?_append]
    have hnone : pre.find? (fun file => file.assetType == EXTENSION_ASSET_TYPES.VSIX)
        = none := by
      rw [List.find?_eq_none]
      intro x hx
      simpa using hpre x hx
    rw [hnone]
    simp [List.find?_cons, hf]
  exact resolveDownloadInfo_find_some ext version tv f hsel hfind

/-- C10 witness: with files `[details, vsix₁, vsix₂]`, resolution downloads
the first package asset's source. -/
theorem resolve_first_vsix_asset_witness :
    resolveDownloadInfo (some multiAssetExtension) none =
      some { downloadUrl := "https://example.com/first.vsix", version := "4.0.0",
             fileName := "acme.tool-4.0.0.vsix" } :=
  resolve_first_vsix_asset multiAssetExtension none multiAssetVersion
    [detailsAsset] [secondVsixAsset] firstVsixAsset
    (by decide) (by decide) (by decide) (by decide)

end Marketplace
